import Mathlib

/- Verification of the job-script rendering and sbatch-directive injection kernel of
   jobbergate (jobbergate-api/jobbergate_api/apps/job_scripts/routers.py).

   Python strings are modelled as lists of characters (`Str`), Python integers as `Int`,
   Python dicts as association lists with insertion-order update semantics (`dictSet`),
   and Python exceptions as an explicit error type threaded through `Except`. -/

namespace Jobbergate

/-- Python strings are modelled as lists of characters. -/
abbrev Str := List Char

/-- Least index at which the pattern occurs as a contiguous substring of the string,
as an `Option` (used to model Python `str.find`, which returns the least such index).
Like Python, an empty pattern occurs at index 0 of any string. -/
def strFindOpt : Str → Str → Option Nat
  | [], pat => if pat.isPrefixOf ([] : Str) then some 0 else none
  | c :: t, pat => if pat.isPrefixOf (c :: t) then some 0 else (strFindOpt t pat).map (fun n => n + 1)

/-- Model of Python `s.find(pat)`: index of the first occurrence of `pat` in `s`, or `-1`
when there is none. -/
def strFind (s pat : Str) : Int :=
  match strFindOpt s pat with
  | some n => (n : Int)
  | none => -1

/-- Model of the Python slice `s[k:]` with a possibly negative index `k`
(a negative index counts from the end of the string, clamped at 0). -/
def pySliceFrom (s : Str) (k : Int) : Str :=
  if 0 ≤ k then s.drop k.toNat else s.drop (s.length - (-k).toNat)

/-- Model of the Python slice `s[:k]` with a possibly negative index `k`
(a negative index counts from the end of the string, clamped at 0). -/
def pySliceTo (s : Str) (k : Int) : Str :=
  if 0 ≤ k then s.take k.toNat else s.take (s.length - (-k).toNat)

/-- The directive marker substring searched for by `inject_sbatch_params`. -/
def sbatchMarker : Str := ("#SBATCH").toList

/-- The one-character string searched for to locate the end of the marker line. -/
def newlineStr : Str := ("\n").toList

/-- The block of new directive lines built by the loop in `inject_sbatch_params`
(routers.py lines 48-50): for each parameter the code appends the characters
`#SBATCH `, the parameter itself, and a literal backslash followed by the letter `n`
(the Python source writes an escaped backslash, so no real newline is appended). -/
def sbatchLines (sbatch_params : List Str) : Str :=
  (sbatch_params.map (fun p => ("#SBATCH ").toList ++ p ++ ['\\', 'n'])).flatten

/-- Embedding of `inject_sbatch_params` (routers.py lines 35-55). The function returns
the input unchanged for an empty parameter list; otherwise it computes the index of the
first occurrence of `#SBATCH` with `find` (which yields `-1` when absent), takes the
slice of the body from that index, adds the position of the first newline of that slice
(again `-1` when absent) plus one, and splices the new directive lines into the body at
the resulting, possibly negative, index. -/
def inject_sbatch_params (job_script_data_as_string : Str) (sbatch_params : List Str) : Str :=
  if sbatch_params = [] then job_script_data_as_string
  else
    let first_sbatch_index := strFind job_script_data_as_string sbatchMarker
    let string_slice := pySliceFrom job_script_data_as_string first_sbatch_index
    let line_end := strFind string_slice newlineStr + first_sbatch_index + 1
    pySliceTo job_script_data_as_string line_end ++ sbatchLines sbatch_params ++
      pySliceFrom job_script_data_as_string line_end

/-- Body used in the counterexample to C1 as stated: it contains the marker but no
newline after it. -/
def cexBodyC1 : Str := ("#SBATCH -x").toList

/-- Directive list used in the counterexample to C1 as stated. -/
def cexParamsC1 : List Str := [("-N 10").toList]

/-- Body used in the witness for the amended C1. -/
def witBodyC1 : Str := ("#SBATCH a\nX").toList

/-- Directive list used in the witness for the amended C1. -/
def witParamsC1 : List Str := [("-c").toList]

/-- Body used in the counterexample to C8 as stated: it contains no marker. -/
def cexBodyC8 : Str := ("ab\ncd").toList

/-- Directive list used in the counterexample to C8 as stated. -/
def cexParamsC8 : List Str := [("-N 10").toList]

/-- Model of the Python/YAML values that appear in an application configuration and in a
parameter overlay: strings, integers, booleans, None, lists, and nested mappings. A
mapping is an association list in insertion order, matching a Python dict. -/
inductive PyValue where
  | str (s : Str)
  | int (n : Int)
  | bool (b : Bool)
  | none
  | list (xs : List PyValue)
  | dict (entries : List (Str × PyValue))

/-- Errors raised by the embedded code. The first five model the Python exceptions the
source can actually raise (KeyError, IndexError, TypeError, AttributeError, and a Jinja2
template syntax error). The last three — a render error naming an undefined key, a
missing-archive-member error naming a path, and a missing-output-mapping error naming a
path — are the structured errors the specification describes; no code path of the source
produces them, and they are declared here so that statements about them can be made. -/
inductive PyError where
  | keyError
  | indexError
  | typeError
  | attributeError
  | templateSyntaxError
  | renderUndefined (key : Str)
  | memberNotFound (path : Str)
  | missingOutputMapping (path : Str)
deriving DecidableEq

/-- Model of a Python dict assignment `d[k] = v` on an association list kept in
insertion order: an existing key is updated in place, a new key is appended at the end. -/
def dictSet {α : Type} : List (Str × α) → Str → α → List (Str × α)
  | [], k, v => [(k, v)]
  | (k0, v0) :: rest, k, v =>
      if k0 = k then (k0, v) :: rest else (k0, v0) :: dictSet rest k v

/-- Model of a Python dict lookup `d[k]` as an `Option` (first entry with the key). -/
def dictLookup {α : Type} (k : Str) : List (Str × α) → Option α
  | [] => Option.none
  | (k0, v0) :: rest => if k0 = k then some v0 else dictLookup k rest

/-- Model of Python `d.get(k)`: the stored value, or `None` when the key is absent. -/
def pyGet (d : List (Str × PyValue)) (k : Str) : PyValue :=
  (dictLookup k d).getD PyValue.none

/-- One step of the parameter-flattening loop of `build_job_script_data_as_string`
(routers.py lines 115-120): a mapping-valued entry has each of its inner entries
assigned into the flat dict, any other entry is assigned under its own key. -/
def flattenStep (acc : List (Str × PyValue)) (kv : Str × PyValue) : List (Str × PyValue) :=
  match kv.2 with
  | .dict inner => inner.foldl (fun a p => dictSet a p.1 p.2) acc
  | v => dictSet acc kv.1 v

/-- Embedding of the parameter-flattening loop of `build_job_script_data_as_string`
(routers.py lines 114-120): iterate the top-level entries in order, starting from an
empty dict. -/
def flatten (param_dict : List (Str × PyValue)) : List (Str × PyValue) :=
  param_dict.foldl flattenStep []

/-- The value, if any, that a single top-level entry assigns to the flat key `k` when it
is processed by the flattening loop: a mapping-valued entry writes `k` when its inner
mapping holds `k` (the last inner occurrence winning), any other entry writes `k` when
its own key is `k`. -/
def entryWrites (k : Str) : Str × PyValue → Option PyValue
  | (_, .dict inner) => dictLookup k inner.reverse
  | (key, v) => if key = k then some v else Option.none

/-- The nested configuration of the flattening example in the claim:
a maps x to 1 and b maps x to 2. -/
def exampleNestedConfig : List (Str × PyValue) :=
  [(("a").toList, .dict [(("x").toList, .int 1)]),
   (("b").toList, .dict [(("x").toList, .int 2)])]

/-- Whitespace characters ignored around an expression inside a substitution tag. -/
def isSpaceChar (c : Char) : Bool := c == ' ' || c == '\t' || c == '\n' || c == '\r'

/-- Characters allowed in a parameter key referenced as data.key. -/
def isIdentChar (c : Char) : Bool := c.isAlphanum || c == '_'

/-- Strip leading and trailing whitespace from a character list. -/
def trimSpaces (s : Str) : Str :=
  ((s.dropWhile isSpaceChar).reverse.dropWhile isSpaceChar).reverse

/-- Decimal rendering of a Python integer. -/
def intToDec (n : Int) : Str :=
  if n < 0 then '-' :: Nat.toDigits 10 n.natAbs else Nat.toDigits 10 n.toNat

mutual

/-- Model of Python repr for configuration values, used when a non-string value is
substituted into a template. String quoting is simplified (single quotes, no escaping);
no claim exercises this corner, all values rendered in the claims are strings. -/
def pyRepr : PyValue → Str
  | .str s => Char.ofNat 39 :: s ++ [Char.ofNat 39]
  | .int n => intToDec n
  | .bool b => if b then ("True").toList else ("False").toList
  | .none => ("None").toList
  | .list xs => '[' :: (List.intercalate ((", ").toList) (pyReprListAux xs)) ++ [']']
  | .dict es => Char.ofNat 123 :: (List.intercalate ((", ").toList) (pyReprDictAux es)) ++
      [Char.ofNat 125]

/-- Python repr of each element of a list value. -/
def pyReprListAux : List PyValue → List Str
  | [] => []
  | x :: xs => pyRepr x :: pyReprListAux xs

/-- Python repr of each entry of a dict value. -/
def pyReprDictAux : List (Str × PyValue) → List Str
  | [] => []
  | (k, v) :: es => (Char.ofNat 39 :: k ++ Char.ofNat 39 :: ':' :: ' ' :: pyRepr v) ::
      pyReprDictAux es

end

/-- Model of Python str applied to a parameter value being substituted: a string renders
as its own characters, any other value as its repr. -/
def pyStr : PyValue → Str
  | .str s => s
  | v => pyRepr v

/-- The opening brace character of a substitution tag. -/
def lbrace : Char := Char.ofNat 123

/-- The closing brace character of a substitution tag. -/
def rbrace : Char := Char.ofNat 125

/-- The prefix every supported substitution expression must carry: the templates of this
code base reference parameters as data.key, matching render(data=param_dict_flat). -/
def dataDotStr : Str := ("data.").toList

/-- Evaluation of the expression inside a substitution tag under jinja2's default
environment, restricted to the dotted form data.key: a key present in the flat dict
renders as the Python string of its value; an absent key yields jinja2's default
Undefined, which renders as the empty string. Any other expression shape is outside the
modelled fragment and is mapped to a syntax error. -/
def evalDataExpr (expr : Str) (p : List (Str × PyValue)) : Option Str :=
  if dataDotStr.isPrefixOf (trimSpaces expr) then
    if (trimSpaces expr).drop 5 ≠ [] ∧ ((trimSpaces expr).drop 5).all isIdentChar then
      some (match dictLookup ((trimSpaces expr).drop 5) p with
            | some v => pyStr v
            | Option.none => [])
    else Option.none
  else Option.none

/-- Scanner state for the template renderer: in literal text, after one opening brace,
inside an expression (characters collected in reverse), or inside an expression after
one closing brace. -/
inductive ScanState where
  | text
  | lbr
  | expr (acc : Str)
  | rbr (acc : Str)

/-- One-pass scanner for the modelled jinja2 fragment: literal text is echoed, a pair of
opening braces starts an expression, a pair of closing braces ends it and substitutes
its evaluation; an unterminated tag is a syntax error. -/
def renderScan : Str → ScanState → List (Str × PyValue) → Except PyError Str
  | [], .text, _ => .ok []
  | [], .lbr, _ => .ok [lbrace]
  | [], .expr _, _ => .error .templateSyntaxError
  | [], .rbr _, _ => .error .templateSyntaxError
  | c :: rest, .text, p =>
      if c = lbrace then renderScan rest .lbr p
      else
        match renderScan rest .text p with
        | .error e => .error e
        | .ok t => .ok (c :: t)
  | c :: rest, .lbr, p =>
      if c = lbrace then renderScan rest (.expr []) p
      else
        match renderScan rest .text p with
        | .error e => .error e
        | .ok t => .ok (lbrace :: c :: t)
  | c :: rest, .expr acc, p =>
      if c = rbrace then renderScan rest (.rbr acc) p
      else renderScan rest (.expr (c :: acc)) p
  | c :: rest, .rbr acc, p =>
      if c = rbrace then
        match evalDataExpr acc.reverse p with
        | Option.none => .error .templateSyntaxError
        | some out =>
            match renderScan rest .text p with
            | .error e => .error e
            | .ok t => .ok (out ++ t)
      else renderScan rest (.expr (c :: rbrace :: acc)) p

/-- Model of jinja2 Template(template_text).render(data=param_dict_flat) with the
library's default environment, restricted to templates built from literal text and
substitutions of the form data.key (the only forms the source's templates use). The
default environment substitutes the empty string for an undefined key instead of
raising. -/
def jinjaRender (template_text : Str) (param_dict_flat : List (Str × PyValue)) :
    Except PyError Str :=
  renderScan template_text .text param_dict_flat

/-- Rendering loop of render_template (routers.py lines 77-80): each template text is
rendered in order against the flat parameter dict and assigned back under its key; the
first rendering failure aborts the call. -/
def renderAll : List (Str × Str) → List (Str × PyValue) → Except PyError (List (Str × Str))
  | [], _ => .ok []
  | (k, v) :: rest, p =>
      match jinjaRender v p with
      | .error e => .error e
      | .ok r =>
          match renderAll rest p with
          | .error e => .error e
          | .ok rs => .ok ((k, r) :: rs)

/-- Hexadecimal digit (lowercase) used by JSON unicode escapes. -/
def toHexDigit (n : Nat) : Char :=
  if n < 10 then Char.ofNat (48 + n) else Char.ofNat (87 + n)

/-- Four-digit JSON unicode escape of a code unit. -/
def uEscape (n : Nat) : Str :=
  '\\' :: 'u' :: [toHexDigit (n / 4096 % 16), toHexDigit (n / 256 % 16),
    toHexDigit (n / 16 % 16), toHexDigit (n % 16)]

/-- Escaping of one character by json.dumps with its default ensure_ascii=True. -/
def jsonEscapeChar (c : Char) : Str :=
  if c = '"' then ['\\', '"']
  else if c = '\\' then ['\\', '\\']
  else if c = '\n' then ['\\', 'n']
  else if c = '\t' then ['\\', 't']
  else if c = '\r' then ['\\', 'r']
  else if c = Char.ofNat 8 then ['\\', 'b']
  else if c = Char.ofNat 12 then ['\\', 'f']
  else if c.toNat < 32 then uEscape c.toNat
  else if c.toNat < 127 then [c]
  else if c.toNat < 65536 then uEscape c.toNat
  else uEscape (55296 + (c.toNat - 65536) / 1024) ++ uEscape (56320 + (c.toNat - 65536) % 1024)

/-- JSON encoding of one string, with json.dumps escaping. -/
def jsonString (s : Str) : Str := '"' :: (s.map jsonEscapeChar).flatten ++ ['"']

/-- Model of json.dumps on a dict of strings with the default separators. -/
def jsonDumps (d : List (Str × Str)) : Str :=
  Char.ofNat 123 :: List.intercalate ((", ").toList)
      (d.map (fun kv => jsonString kv.1 ++ ':' :: ' ' :: jsonString kv.2)) ++ [Char.ofNat 125]

/-- Embedding of render_template (routers.py lines 73-82). The Python function loops
over template_files, rendering each entry with jinja2 and assigning the rendered text
back into the same dict — mutating its argument in place — and returns json.dumps of
that dict. The embedding returns the pair of the dict's state after the call and the
returned JSON string. -/
def render_template (template_files : List (Str × Str))
    (param_dict_flat : List (Str × PyValue)) :
    Except PyError (List (Str × Str) × Str) :=
  match renderAll template_files param_dict_flat with
  | .error e => .error e
  | .ok tf2 => .ok (tf2, jsonDumps tf2)

/-- Template of the form used by the claims about missing keys: a single substitution
of data.key with one space on each side of the expression. -/
def placeholderTemplate (key : Str) : Str :=
  lbrace :: lbrace :: ' ' :: (dataDotStr ++ key ++ [' ', rbrace, rbrace])

/-- The template of the missing-key counterexample. -/
def cexTemplateC2 : Str := ("\x7b\x7b data.missing \x7d\x7d").toList

/-- Template mapping used in the counterexample to C9: one template holding a
substitution of data.x. -/
def cexTemplateFilesC9 : List (Str × Str) :=
  [(("application.sh").toList, ("\x7b\x7b data.x \x7d\x7d").toList)]

/-- Flat parameters used in the counterexample to C9. -/
def cexFlatParamsC9 : List (Str × PyValue) := [(("x").toList, .str (("1").toList))]

/-- State of the template mapping after the C9 counterexample call: the template text
has been replaced by its rendered text. -/
def cexRenderedC9 : List (Str × Str) := [(("application.sh").toList, ("1").toList)]

/-- Template mapping used in the witness for the amended C9. -/
def witTemplateFilesC9 : List (Str × Str) := [(("a").toList, ("hi").toList)]

deriving instance DecidableEq for Except

/-- An archive member: its path name inside the bundle and its decoded text content.
getmembers() yields the members of the tar archive in order. -/
structure TarMember where
  name : Str
  content : Str

/-- Python equality between a string and an arbitrary value: true only for an equal
string (a string compares unequal to every non-string value). -/
def pyStrEq (name : Str) : PyValue → Bool
  | .str s => name == s
  | _ => false

/-- Boolean substring test, modelling Python `a in b` on strings. -/
def isSubstrB (a b : Str) : Bool := (strFindOpt b a).isSome

/-- Model of the Python membership test `name in v` for the value kinds the code can
meet: equality membership for a list, substring containment for a string, key membership
for a dict, and a TypeError for the non-container values. -/
def pyIn (name : Str) : PyValue → Except PyError Bool
  | .list xs => .ok (xs.any (pyStrEq name))
  | .str s => .ok (isSubstrB name s)
  | .dict d => .ok (d.any (fun kv => kv.1 == name))
  | _ => .error .typeError

/-- Model of the subscript chain `support_files_output[k][0]` that picks an output
filename: the first element of a list value (IndexError when empty), the first character
of a string value (IndexError when empty), a KeyError on a dict value (the modelled dict
keys are strings, never the integer 0), and a TypeError otherwise. A non-string first
list element cannot key the string-keyed template mapping of this model and is mapped to
a TypeError; no claim exercises that corner. -/
def pyIndexZero : PyValue → Except PyError Str
  | .list (x :: _) =>
      match x with
      | .str s => .ok s
      | _ => .error .typeError
  | .list [] => .error .indexError
  | .str (c :: _) => .ok [c]
  | .str [] => .error .indexError
  | .dict _ => .error .keyError
  | _ => .error .typeError

/-- The output key under which the main script is stored. -/
def appShKey : Str := ("application.sh").toList

/-- The templates/ directory prefix also accepted for the main-script path. -/
def templatesDirStr : Str := ("templates/").toList

/-- Key of the configuration section inside the merged parameter mapping. -/
def jobbergateConfigKey : Str := ("jobbergate_config").toList

/-- Key of the main-script path inside the configuration section. -/
def defaultTemplateKey : Str := ("default_template").toList

/-- Key of the supporting-file list inside the configuration section. -/
def supportingFilesKey : Str := ("supporting_files").toList

/-- Key of the output-name mapping inside the configuration section. -/
def supportingFilesOutputKey : Str := ("supporting_files_output_name").toList

/-- Storage of a member that matches one of the two accepted main-script names
(routers.py lines 104-106): its content is assigned under application.sh. -/
def mainStore (m : TarMember) (dt : Str) (acc : List (Str × Str)) : List (Str × Str) :=
  if m.name = dt ∨ m.name = templatesDirStr ++ dt then dictSet acc appShKey m.content
  else acc

/-- Embedding of the member loop of build_job_script_data_as_string (routers.py lines
102-111). For each archive member in order: a member whose name equals the configured
default_template, bare or prefixed with templates/, is stored under application.sh; a
member contained in supporting_files is stored under the output filename obtained from
the first key of support_files_output that contains the member name as a substring —
indexing the match list when no key matches raises IndexError, exactly as match[0]
does in the source. -/
def buildTemplateFiles (members : List TarMember) (dt : Str) (sup : PyValue)
    (so : List (Str × PyValue)) (acc : List (Str × Str)) :
    Except PyError (List (Str × Str)) :=
  match members with
  | [] => .ok acc
  | m :: rest =>
      match pyIn m.name sup with
      | .error e => .error e
      | .ok false => buildTemplateFiles rest dt sup so (mainStore m dt acc)
      | .ok true =>
          match (so.map Prod.fst).filter (fun x => isSubstrB m.name x) with
          | [] => .error .indexError
          | key :: _ =>
              match dictLookup key so with
              | Option.none => .error .keyError
              | some v =>
                  match pyIndexZero v with
                  | .error e => .error e
                  | .ok fname =>
                      buildTemplateFiles rest dt sup so
                        (dictSet (mainStore m dt acc) fname m.content)

/-- The last archive member whose name equals one of the two accepted main-script
names; its content is the one left under application.sh by the member loop. -/
def lastMainMatch (dt : Str) (members : List TarMember) : Option TarMember :=
  members.reverse.find? (fun m => decide (m.name = dt ∨ m.name = templatesDirStr ++ dt))

/-- Embedding of the supporting-archive rebuild loop (routers.py lines 121-132): every
member contained in supporting_files is rendered once more against the flat parameters;
the rendered text goes into a scoped temporary archive that is not part of the returned
value, so only the possibility of a rendering failure is observable. -/
def renderSupportingAll (members : List TarMember) (sup : PyValue)
    (flat : List (Str × PyValue)) : Except PyError Unit :=
  match members with
  | [] => .ok ()
  | m :: rest =>
      match pyIn m.name sup with
      | .error e => .error e
      | .ok false => renderSupportingAll rest sup flat
      | .ok true =>
          match jinjaRender m.content flat with
          | .error e => .error e
          | .ok _ => renderSupportingAll rest sup flat

/-- The supporting_files value as the loop sees it: an absent value (None) is replaced
by an empty list (routers.py lines 93-95); any other value is used as-is, the membership
test deciding how it behaves. -/
def cfgSupportingFiles (cfg : List (Str × PyValue)) : PyValue :=
  match pyGet cfg supportingFilesKey with
  | PyValue.none => PyValue.list []
  | v => v

/-- Stages of build_job_script_data_as_string after the output-name mapping has been
read: read supporting_files and default_template ("templates/" + a non-string
default_template raises TypeError, routers.py lines 97-100), run the member loop,
flatten the parameter mapping, render every supporting file for the side archive, then
render the collected template files and JSON-encode them (routers.py lines 102-135). -/
def buildStage (members : List TarMember) (param_dict : List (Str × PyValue))
    (cfg : List (Str × PyValue)) (so : List (Str × PyValue)) : Except PyError Str :=
  match pyGet cfg defaultTemplateKey with
  | .str dt =>
      match buildTemplateFiles members dt (cfgSupportingFiles cfg) so [] with
      | .error e => .error e
      | .ok tf =>
          match renderSupportingAll members (cfgSupportingFiles cfg) (flatten param_dict) with
          | .error e => .error e
          | .ok _ =>
              match render_template tf (flatten param_dict) with
              | .error e => .error e
              | .ok pr => .ok pr.2
  | _ => .error .typeError

/-- Embedding of build_job_script_data_as_string (routers.py lines 85-135) over the
ordered member list of the archive and the merged parameter mapping. An absent
supporting_files_output_name means an empty mapping (routers.py lines 89-91); a
jobbergate_config value that is not a mapping fails as its .get attribute lookup would;
a present non-mapping supporting_files_output_name is modelled as a TypeError (the
source would fail later, at its first use). -/
def build_job_script_data_as_string (members : List TarMember)
    (param_dict : List (Str × PyValue)) : Except PyError Str :=
  match dictLookup jobbergateConfigKey param_dict with
  | Option.none => .error .keyError
  | some (.dict cfg) =>
      match pyGet cfg supportingFilesOutputKey with
      | .dict so => buildStage members param_dict cfg so
      | .none => buildStage members param_dict cfg []
      | _ => .error .typeError
  | some _ => .error .attributeError

/-- Archive and configuration of the counterexample to C3: no member matches the
configured default_template. -/
def cexMembersC3 : List TarMember := [⟨("other.txt").toList, ("hi").toList⟩]

/-- Parameter mapping of the counterexample to C3. -/
def cexParamDictC3 : List (Str × PyValue) :=
  [(jobbergateConfigKey, .dict [(defaultTemplateKey, .str (("job.sh").toList))])]

/-- Archive of the counterexample to C4: one supporting file with no output-name entry. -/
def cexMembersC4 : List TarMember := [⟨("sup.py").toList, ("x").toList⟩]

/-- Parameter mapping of the counterexample to C4: sup.py is listed as a supporting file
but supporting_files_output_name is absent. -/
def cexParamDictC4 : List (Str × PyValue) :=
  [(jobbergateConfigKey, .dict
    [(defaultTemplateKey, .str (("job.sh").toList)),
     (supportingFilesKey, .list [.str (("sup.py").toList)])])]

/-- The supporting member of the C4 witness. -/
def cexMemC4 : TarMember := ⟨("sup.py").toList, ("x").toList⟩

/-- The supporting_files value of the C4 witness. -/
def cexSupC4 : PyValue := .list [.str (("sup.py").toList)]

/-- Archive of the C10 witness: the main script appears under its prefixed
templates/ name and then under its bare name. -/
def witMembersC10 : List TarMember :=
  [⟨("templates/job.sh").toList, ("A").toList⟩, ⟨("job.sh").toList, ("B").toList⟩]

/-- Splitting a string at any Python slice index (even a negative one) and concatenating
the two halves gives back the string. -/
theorem pySliceTo_append_pySliceFrom (s : Str) (k : Int) :
    pySliceTo s k ++ pySliceFrom s k = s := by
  unfold pySliceTo pySliceFrom
  by_cases h : 0 ≤ k
  · simp [h, List.take_append_drop]
  · simp [h, List.take_append_drop]

/-- Unfolding of `inject_sbatch_params` on a non-empty parameter list. -/
theorem inject_sbatch_params_eq_of_ne (body : Str) (params : List Str) (hp : params ≠ []) :
    inject_sbatch_params body params =
      pySliceTo body
          (strFind (pySliceFrom body (strFind body sbatchMarker)) newlineStr +
            strFind body sbatchMarker + 1) ++
        sbatchLines params ++
        pySliceFrom body
          (strFind (pySliceFrom body (strFind body sbatchMarker)) newlineStr +
            strFind body sbatchMarker + 1) := by
  unfold inject_sbatch_params
  rw [if_neg hp]

/-- Evaluation of `pySliceFrom` at a nonnegative index. -/
theorem pySliceFrom_ofNat (s : Str) (n : Nat) : pySliceFrom s (n : Int) = s.drop n := by
  simp [pySliceFrom]

/-- Evaluation of `pySliceTo` at a nonnegative index. -/
theorem pySliceTo_ofNat (s : Str) (n : Nat) : pySliceTo s (n : Int) = s.take n := by
  simp [pySliceTo]

/-- Evaluation of `pySliceFrom` at index `-1`. -/
theorem pySliceFrom_negOne (s : Str) : pySliceFrom s (-1) = s.drop (s.length - 1) := by
  simp [pySliceFrom]

/-- Evaluation of `pySliceTo` at index `-1`. -/
theorem pySliceTo_negOne (s : Str) : pySliceTo s (-1) = s.take (s.length - 1) := by
  simp [pySliceTo]

/-- C6: injecting an empty directive sequence returns the body unchanged. -/
theorem inject_sbatch_params_empty (body : Str) :
    inject_sbatch_params body [] = body := by
  simp [inject_sbatch_params]

/-- C7: for every body and every directive sequence, the result of
`inject_sbatch_params` is a prefix of the body, followed by the newly inserted
directive lines, followed by the remaining suffix of the body, with the prefix and the
suffix concatenating back to the original body. -/
theorem inject_sbatch_params_frame (body : Str) (params : List Str) :
    ∃ pre suf, inject_sbatch_params body params = pre ++ sbatchLines params ++ suf ∧
      pre ++ suf = body := by
  by_cases hp : params = []
  · refine ⟨body, [], ?_, by simp⟩
    simp [hp, inject_sbatch_params, sbatchLines]
  · unfold inject_sbatch_params
    rw [if_neg hp]
    refine ⟨_, _, rfl, pySliceTo_append_pySliceFrom _ _⟩

/-- C1 (amended): when the body contains the marker at index `i` and the directive list is
non-empty, the new directive lines are inserted immediately after the first newline
following the marker when such a newline exists; when no newline follows the marker they
are inserted at the marker position itself, i.e. immediately before the existing first
directive line, not at end-of-string. -/
theorem inject_sbatch_params_marker_cases (body : Str) (params : List Str) (i : Nat)
    (hm : strFindOpt body sbatchMarker = some i) (hp : params ≠ []) :
    inject_sbatch_params body params =
      match strFindOpt (body.drop i) newlineStr with
      | some n => body.take (i + n + 1) ++ sbatchLines params ++ body.drop (i + n + 1)
      | none => body.take i ++ sbatchLines params ++ body.drop i := by
  rw [inject_sbatch_params_eq_of_ne body params hp]
  have h1 : strFind body sbatchMarker = (i : Int) := by simp [strFind, hm]
  rw [h1, pySliceFrom_ofNat]
  cases hn : strFindOpt (body.drop i) newlineStr with
  | some n =>
      have h2 : strFind (body.drop i) newlineStr = (n : Int) := by simp [strFind, hn]
      have h3 : (n : Int) + (i : Int) + 1 = ((i + n + 1 : Nat) : Int) := by push_cast; ring
      rw [h2, h3, pySliceTo_ofNat, pySliceFrom_ofNat]
  | none =>
      have h2 : strFind (body.drop i) newlineStr = -1 := by simp [strFind, hn]
      have h3 : (-1 : Int) + (i : Int) + 1 = ((i : Nat) : Int) := by ring
      rw [h2, h3, pySliceTo_ofNat, pySliceFrom_ofNat]

/-- C1 (counterexample to the claim as stated): for this body, which holds the marker at
index 0 and no newline after it, the claim places the new lines at end-of-string, but the
code inserts them at the marker position instead. -/
theorem inject_sbatch_params_end_of_string_cex :
    strFindOpt cexBodyC1 sbatchMarker = some 0 ∧ cexParamsC1 ≠ [] ∧
      inject_sbatch_params cexBodyC1 cexParamsC1 ≠ cexBodyC1 ++ sbatchLines cexParamsC1 :=
  ⟨by decide, by decide, by decide⟩

/-- Witness for the amended C1 at a concrete body whose marker line ends in a newline. -/
theorem inject_sbatch_params_marker_cases_witness :
    strFindOpt witBodyC1 sbatchMarker = some 0 ∧ witParamsC1 ≠ [] ∧
      inject_sbatch_params witBodyC1 witParamsC1 =
        match strFindOpt (witBodyC1.drop 0) newlineStr with
        | some n => witBodyC1.take (0 + n + 1) ++ sbatchLines witParamsC1 ++
            witBodyC1.drop (0 + n + 1)
        | none => witBodyC1.take 0 ++ sbatchLines witParamsC1 ++ witBodyC1.drop 0 :=
  ⟨by decide, by decide,
    inject_sbatch_params_marker_cases witBodyC1 witParamsC1 0 (by decide) (by decide)⟩

/-- C8 (amended): when the body contains no occurrence of the marker and the directive
list is non-empty, the function does not crash, but the insertion point is not the one
obtained by pretending the marker sits at position 0: the slice taken from index `-1` is
the last character of the body, so the new lines land at position 0 when the body ends in
a newline and immediately before the final character otherwise (for the empty body the
result is just the new lines). -/
theorem inject_sbatch_params_no_marker (body : Str) (params : List Str)
    (hm : strFindOpt body sbatchMarker = none) (hp : params ≠ []) :
    inject_sbatch_params body params =
      if body.getLast? = some '\n' then sbatchLines params ++ body
      else body.dropLast ++ sbatchLines params ++ body.drop (body.length - 1) := by
  rw [inject_sbatch_params_eq_of_ne body params hp]
  have h1 : strFind body sbatchMarker = -1 := by simp [strFind, hm]
  rw [h1, pySliceFrom_negOne]
  rcases List.eq_nil_or_concat body with hb | ⟨xs, x, hb⟩
  · subst hb
    simp [strFind, strFindOpt, newlineStr, List.isPrefixOf, pySliceTo, pySliceFrom]
  · simp only [List.concat_eq_append] at hb
    subst hb
    have hlen : (xs ++ [x]).length - 1 = xs.length := by simp
    have hdrop : (xs ++ [x]).drop xs.length = [x] := List.drop_left xs [x]
    rw [hlen, hdrop]
    have hfind : strFindOpt [x] newlineStr =
        if x = '\n' then some 0 else none := by
      by_cases hx : x = '\n'
      · simp [strFindOpt, newlineStr, List.isPrefixOf, hx]
      · rw [if_neg hx]
        simp [strFindOpt, newlineStr, List.isPrefixOf]
        exact fun h => hx h.symm
    by_cases hx : x = '\n'
    · have h2 : strFind [x] newlineStr + -1 + 1 = ((0 : Nat) : Int) := by
        subst hx
        decide
      rw [h2, pySliceTo_ofNat, pySliceFrom_ofNat]
      simp [List.getLast?_concat, hx]
    · have h2 : strFind [x] newlineStr = -1 := by simp [strFind, hfind, hx]
      rw [h2]
      have h3 : (-1 : Int) + -1 + 1 = -1 := by ring
      rw [h3, pySliceTo_negOne, pySliceFrom_negOne]
      rw [hlen, hdrop, List.take_left]
      simp [List.getLast?_concat, List.dropLast_concat, hlen, hdrop, hx]

/-- C8 (counterexample to the claim as stated): for this marker-free body, treating the
marker as if it occurred at position 0 would insert the directive lines right after the
first line, but the code inserts them immediately before the final character. -/
theorem inject_sbatch_params_as_if_zero_cex :
    strFindOpt cexBodyC8 sbatchMarker = none ∧ cexParamsC8 ≠ [] ∧
      inject_sbatch_params cexBodyC8 cexParamsC8 ≠
        ("ab\n").toList ++ sbatchLines cexParamsC8 ++ ("cd").toList :=
  ⟨by decide, by decide, by decide⟩

/-- Witness for the amended C8 at a concrete marker-free body. -/
theorem inject_sbatch_params_no_marker_witness :
    strFindOpt cexBodyC8 sbatchMarker = none ∧ cexParamsC8 ≠ [] ∧
      inject_sbatch_params cexBodyC8 cexParamsC8 =
        (if cexBodyC8.getLast? = some '\n' then sbatchLines cexParamsC8 ++ cexBodyC8
         else cexBodyC8.dropLast ++ sbatchLines cexParamsC8 ++
           cexBodyC8.drop (cexBodyC8.length - 1)) :=
  ⟨by decide, by decide,
    inject_sbatch_params_no_marker cexBodyC8 cexParamsC8 (by decide) (by decide)⟩

/-- Looking up a key after a Python dict assignment: the assigned key now holds the new
value, every other key is unchanged. -/
theorem dictLookup_dictSet {α : Type} (a : List (Str × α)) (key k : Str) (v : α) :
    dictLookup k (dictSet a key v) = if key = k then some v else dictLookup k a := by
  induction a with
  | nil => by_cases h : key = k <;> simp [dictSet, dictLookup, h]
  | cons p rest ih =>
      obtain ⟨k0, v0⟩ := p
      by_cases h : k0 = key <;> by_cases h2 : key = k <;>
        simp_all [dictSet, dictLookup]

/-- First-match lookup distributes over list append. -/
theorem dictLookup_append {α : Type} (k : Str) (l1 l2 : List (Str × α)) :
    dictLookup k (l1 ++ l2) = (dictLookup k l1).or (dictLookup k l2) := by
  induction l1 with
  | nil => simp [dictLookup]
  | cons p rest ih =>
      obtain ⟨k0, v0⟩ := p
      by_cases h : k0 = k <;> simp [dictLookup, h, ih]

/-- Folding Python dict assignments over a list of entries: the last entry holding a key
wins, and keys written by no entry keep their value from the accumulator. -/
theorem dictLookup_foldl_dictSet (inner : List (Str × PyValue))
    (acc : List (Str × PyValue)) (k : Str) :
    dictLookup k (inner.foldl (fun a p => dictSet a p.1 p.2) acc) =
      (dictLookup k inner.reverse).or (dictLookup k acc) := by
  induction inner generalizing acc with
  | nil => simp [dictLookup]
  | cons p rest ih =>
      obtain ⟨k1, v1⟩ := p
      simp only [List.foldl_cons, List.reverse_cons]
      rw [ih, dictLookup_append, dictLookup_dictSet]
      cases hr : dictLookup k rest.reverse <;>
        by_cases h : k1 = k <;> simp [dictLookup, h, hr]

/-- One step of the flattening loop, seen through lookup: the step writes exactly the
value described by `entryWrites`. -/
theorem dictLookup_flattenStep (acc : List (Str × PyValue)) (p : Str × PyValue)
    (k : Str) :
    dictLookup k (flattenStep acc p) = (entryWrites k p).or (dictLookup k acc) := by
  obtain ⟨key, v⟩ := p
  cases v with
  | dict inner =>
      simp only [flattenStep, entryWrites]
      rw [dictLookup_foldl_dictSet]
  | str s =>
      simp only [flattenStep, entryWrites]
      rw [dictLookup_dictSet]
      by_cases h : key = k <;> simp [h]
  | int n =>
      simp only [flattenStep, entryWrites]
      rw [dictLookup_dictSet]
      by_cases h : key = k <;> simp [h]
  | bool b =>
      simp only [flattenStep, entryWrites]
      rw [dictLookup_dictSet]
      by_cases h : key = k <;> simp [h]
  | none =>
      simp only [flattenStep, entryWrites]
      rw [dictLookup_dictSet]
      by_cases h : key = k <;> simp [h]
  | list xs =>
      simp only [flattenStep, entryWrites]
      rw [dictLookup_dictSet]
      by_cases h : key = k <;> simp [h]

/-- Lookup through the whole flattening fold, with an arbitrary starting accumulator. -/
theorem dictLookup_flatten_aux (d : List (Str × PyValue)) (acc : List (Str × PyValue))
    (k : Str) :
    dictLookup k (d.foldl flattenStep acc) =
      (List.findSome? (entryWrites k) d.reverse).or (dictLookup k acc) := by
  induction d generalizing acc with
  | nil => simp [List.findSome?]
  | cons p rest ih =>
      simp only [List.foldl_cons, List.reverse_cons]
      rw [ih, dictLookup_flattenStep, List.findSome?_append]
      cases hr : List.findSome? (entryWrites k) rest.reverse <;>
        cases he : entryWrites k p <;> simp [List.findSome?, hr, he]

/-- C5: the flattening loop iterates top-level entries in order, hoists the inner keys
of mapping-valued entries (the last writer of a key winning) and passes other entries
through under their own key: the lookup of any key in the flattened dict is the value
written by the last entry that writes it; in particular the nested configuration in
which a maps x to 1 and b maps x to 2 flattens to the dict mapping x to 2. -/
theorem flatten_last_writer_wins :
    (∀ (param_dict : List (Str × PyValue)) (k : Str),
        dictLookup k (flatten param_dict) =
          List.findSome? (entryWrites k) param_dict.reverse) ∧
      flatten exampleNestedConfig = [(("x").toList, .int 2)] := by
  constructor
  · intro d k
    rw [flatten, dictLookup_flatten_aux]
    cases h : List.findSome? (entryWrites k) d.reverse <;> simp [h, dictLookup]
  · rfl

/-- Identifier characters are not whitespace. -/
theorem ident_char_not_space (c : Char) (hid : isIdentChar c = true) :
    isSpaceChar c = false := by
  cases hsp : isSpaceChar c with
  | false => rfl
  | true =>
      exfalso
      simp only [isSpaceChar, Bool.or_eq_true, beq_iff_eq] at hsp
      rcases hsp with ((h | h) | h) | h <;> subst h <;> revert hid <;> decide

/-- Identifier characters are not the closing brace. -/
theorem ident_char_ne_rbrace (c : Char) (h : isIdentChar c = true) : c ≠ rbrace := by
  intro hc
  subst hc
  revert h
  decide

/-- Every list is a Boolean prefix of itself followed by anything. -/
theorem isPrefixOf_append_self (l t : Str) : l.isPrefixOf (l ++ t) = true := by
  induction l with
  | nil => simp [List.isPrefixOf]
  | cons c l' ih => simp [List.isPrefixOf, ih]

/-- Trimming the placeholder expression leaves exactly the dotted key reference. -/
theorem trimSpaces_placeholder (key : Str) (hk1 : key ≠ [])
    (hk2 : key.all isIdentChar = true) :
    trimSpaces (' ' :: (dataDotStr ++ key ++ [' '])) = dataDotStr ++ key := by
  unfold trimSpaces
  rw [List.dropWhile_cons, if_pos (by decide : isSpaceChar ' ' = true)]
  have hsplit : dataDotStr ++ key ++ [' '] = 'd' :: (("ata.").toList ++ key ++ [' ']) := rfl
  rw [hsplit, List.dropWhile_cons, if_neg (by decide : ¬ (isSpaceChar 'd' = true)), ← hsplit]
  rw [show (dataDotStr ++ key ++ [' ']).reverse = ' ' :: (dataDotStr ++ key).reverse from by
    simp]
  rw [List.dropWhile_cons, if_pos (by decide : isSpaceChar ' ' = true)]
  obtain ⟨c, t, hkr⟩ : ∃ c t, key.reverse = c :: t := by
    cases hk : key.reverse with
    | nil => exact absurd (List.reverse_eq_nil_iff.mp hk) hk1
    | cons c t => exact ⟨c, t, rfl⟩
  have hmem : c ∈ key := by
    have : c ∈ key.reverse := by
      rw [hkr]
      exact List.mem_cons_self c t
    simpa using this
  have hc : isSpaceChar c = false :=
    ident_char_not_space c (List.all_eq_true.mp hk2 c hmem)
  rw [show (dataDotStr ++ key).reverse = key.reverse ++ dataDotStr.reverse from by simp]
  rw [hkr, List.cons_append, List.dropWhile_cons, if_neg (by simp [hc])]
  rw [← List.cons_append, ← hkr]
  rw [show key.reverse ++ dataDotStr.reverse = (dataDotStr ++ key).reverse from by simp]
  exact List.reverse_reverse _

/-- Scanning inside an expression collects every character up to the closing braces. -/
theorem renderScan_expr_collect (inner rest acc : Str) (p : List (Str × PyValue))
    (h : ∀ c ∈ inner, c ≠ rbrace) :
    renderScan (inner ++ rest) (.expr acc) p =
      renderScan rest (.expr (inner.reverse ++ acc)) p := by
  induction inner generalizing acc with
  | nil => simp
  | cons c inner' ih =>
      have hc : c ≠ rbrace := h c (List.mem_cons_self c inner')
      simp only [List.cons_append, renderScan, if_neg hc, List.append_eq]
      rw [ih (c :: acc) (fun d hd => h d (List.mem_cons_of_mem c hd))]
      simp

/-- C2 (amended): rendering a template consisting of one substitution of a key that is
absent from the flat parameter mapping substitutes the empty string and raises no
error, because jinja2's default environment renders an undefined value as empty. -/
theorem jinja_missing_key_renders_empty (key : Str) (p : List (Str × PyValue))
    (hk1 : key ≠ []) (hk2 : key.all isIdentChar = true)
    (hmiss : dictLookup key p = Option.none) :
    jinjaRender (placeholderTemplate key) p = .ok [] := by
  unfold jinjaRender placeholderTemplate
  rw [show renderScan
      (lbrace :: lbrace :: ' ' :: (dataDotStr ++ key ++ [' ', rbrace, rbrace])) .text p =
      renderScan (lbrace :: ' ' :: (dataDotStr ++ key ++ [' ', rbrace, rbrace])) .lbr p from by
    simp [renderScan]]
  rw [show renderScan
      (lbrace :: ' ' :: (dataDotStr ++ key ++ [' ', rbrace, rbrace])) .lbr p =
      renderScan (' ' :: (dataDotStr ++ key ++ [' ', rbrace, rbrace])) (.expr []) p from by
    simp [renderScan]]
  have hstr : ' ' :: (dataDotStr ++ key ++ [' ', rbrace, rbrace]) =
      (' ' :: (dataDotStr ++ key ++ [' '])) ++ [rbrace, rbrace] := by
    simp
  have hin : ∀ c ∈ ' ' :: (dataDotStr ++ key ++ [' ']), c ≠ rbrace := by
    intro c hc
    rcases List.mem_cons.mp hc with hc | hc
    · subst hc
      decide
    · rcases List.mem_append.mp hc with hc | hc
      · rcases List.mem_append.mp hc with hc | hc
        · have hc2 : c ∈ (['d', 'a', 't', 'a', '.'] : List Char) := hc
          fin_cases hc2 <;> decide
        · exact ident_char_ne_rbrace c (List.all_eq_true.mp hk2 c hc)
      · have : c = ' ' := by simpa using hc
        subst this
        decide
  rw [hstr, renderScan_expr_collect _ _ _ _ hin]
  have heval : evalDataExpr (' ' :: (dataDotStr ++ (key ++ [' ']))) p = some [] := by
    rw [show ' ' :: (dataDotStr ++ (key ++ [' '])) = ' ' :: (dataDotStr ++ key ++ [' '])
      from by rw [List.append_assoc]]
    unfold evalDataExpr
    rw [trimSpaces_placeholder key hk1 hk2]
    rw [if_pos (isPrefixOf_append_self dataDotStr key)]
    have hdrop : (dataDotStr ++ key).drop 5 = key := by
      rw [show (5 : Nat) = dataDotStr.length from rfl]
      exact List.drop_left _ _
    rw [hdrop, if_pos ⟨hk1, hk2⟩, hmiss]
  simp [renderScan, heval]

/-- C2 (counterexample to the claim as stated): rendering the template holding only a
substitution of the absent key missing against the empty flat mapping succeeds with the
empty string, instead of raising a render error naming the key. -/
theorem render_missing_key_no_error_cex :
    jinjaRender cexTemplateC2 [] = .ok [] ∧
      (Except.ok [] : Except PyError Str) ≠
        .error (.renderUndefined (("missing").toList)) := by
  exact ⟨by decide, by decide⟩

/-- Witness for the amended C2, at the key missing and the empty flat mapping. -/
theorem jinja_missing_key_renders_empty_witness :
    jinjaRender (placeholderTemplate (("missing").toList)) [] = .ok [] :=
  jinja_missing_key_renders_empty (("missing").toList) [] (by decide) (by decide) (by rfl)

/-- Characterisation of a successful run of the rendering loop: keys and order are
preserved and each stored value is the rendering of the original text under that key. -/
theorem renderAll_ok (tf : List (Str × Str)) (p : List (Str × PyValue))
    (tf2 : List (Str × Str)) (h : renderAll tf p = .ok tf2) :
    tf2.map Prod.fst = tf.map Prod.fst ∧
      ∀ k v, (k, v) ∈ tf2 → ∃ t, (k, t) ∈ tf ∧ jinjaRender t p = .ok v := by
  induction tf generalizing tf2 with
  | nil =>
      simp only [renderAll] at h
      cases h
      simp
  | cons kv rest ih =>
      obtain ⟨k, v⟩ := kv
      simp only [renderAll] at h
      cases hr : jinjaRender v p with
      | error e => rw [hr] at h; cases h
      | ok r =>
          rw [hr] at h
          cases hrest : renderAll rest p with
          | error e => rw [hrest] at h; cases h
          | ok rs =>
              rw [hrest] at h
              cases h
              obtain ⟨ihmap, ihmem⟩ := ih rs hrest
              constructor
              · simp [ihmap]
              · intro k2 v2 hmem
                rcases List.mem_cons.mp hmem with hmem | hmem
                · rw [Prod.mk.injEq] at hmem
                  obtain ⟨hk, hv⟩ := hmem
                  subst hk
                  subst hv
                  exact ⟨v, List.mem_cons_self _ _, hr⟩
                · obtain ⟨t, ht, hrt⟩ := ihmem k2 v2 hmem
                  exact ⟨t, List.mem_cons_of_mem _ ht, hrt⟩

/-- C9 (amended): render_template mutates the template mapping in place — on a
successful call the mapping afterwards holds, under each original key in the original
order, the rendered text of the template previously stored there — and the returned
body is json.dumps of that mutated mapping; the flat parameter mapping is not touched. -/
theorem render_template_state (tf : List (Str × Str)) (p : List (Str × PyValue))
    (tf2 : List (Str × Str)) (body : Str)
    (h : render_template tf p = .ok (tf2, body)) :
    tf2.map Prod.fst = tf.map Prod.fst ∧
      (∀ k v, (k, v) ∈ tf2 → ∃ t, (k, t) ∈ tf ∧ jinjaRender t p = .ok v) ∧
      body = jsonDumps tf2 := by
  unfold render_template at h
  cases hra : renderAll tf p with
  | error e => rw [hra] at h; cases h
  | ok tfr =>
      rw [hra] at h
      have hpair := Except.ok.inj h
      rw [Prod.mk.injEq] at hpair
      obtain ⟨h1p, h2p⟩ := hpair
      subst h1p
      subst h2p
      obtain ⟨h1, h2⟩ := renderAll_ok tf p tfr hra
      exact ⟨h1, h2, rfl⟩

/-- C9 (counterexample to the claim as stated): after this successful call the template
mapping no longer holds the original unrendered text — the placeholder has been replaced
by the substituted value — so the inputs are not left unchanged. -/
theorem render_template_mutates_cex :
    render_template cexTemplateFilesC9 cexFlatParamsC9 =
        .ok (cexRenderedC9, jsonDumps cexRenderedC9) ∧
      cexRenderedC9 ≠ cexTemplateFilesC9 := by
  exact ⟨by decide, by decide⟩

/-- Witness for the amended C9 at a concrete literal template. -/
theorem render_template_state_witness :
    witTemplateFilesC9.map Prod.fst = witTemplateFilesC9.map Prod.fst ∧
      (∀ k v, (k, v) ∈ witTemplateFilesC9 →
        ∃ t, (k, t) ∈ witTemplateFilesC9 ∧ jinjaRender t [] = .ok v) ∧
      jsonDumps witTemplateFilesC9 = jsonDumps witTemplateFilesC9 :=
  render_template_state witTemplateFilesC9 [] witTemplateFilesC9
    (jsonDumps witTemplateFilesC9) (by decide)

/-- A successful dict lookup exhibits a member of the association list. -/
theorem dictLookup_mem {α : Type} (k : Str) (l : List (Str × α)) (v : α)
    (h : dictLookup k l = some v) : (k, v) ∈ l := by
  induction l with
  | nil => simp [dictLookup] at h
  | cons p rest ih =>
      obtain ⟨k0, v0⟩ := p
      by_cases hk : k0 = k
      · subst hk
        simp [dictLookup] at h
        subst h
        exact List.mem_cons_self _ _
      · simp [dictLookup, hk] at h
        exact List.mem_cons_of_mem _ (ih h)

/-- Unfolding of the last matching member over a cons. -/
theorem lastMainMatch_cons (dt : Str) (m : TarMember) (rest : List TarMember) :
    lastMainMatch dt (m :: rest) =
      (lastMainMatch dt rest).or
        (if m.name = dt ∨ m.name = templatesDirStr ++ dt then some m else Option.none) := by
  unfold lastMainMatch
  rw [List.reverse_cons, List.find?_append]
  by_cases h : m.name = dt ∨ m.name = templatesDirStr ++ dt
  · simp [List.find?, h]
  · simp [List.find?, h]

/-- Algebra of one main-script storage step seen through the application.sh lookup. -/
theorem or_mainStore_algebra (m : TarMember) (dt : Str) (acc : List (Str × Str))
    (orest : Option TarMember) :
    (orest.map (fun x => x.content)).or (dictLookup appShKey (mainStore m dt acc)) =
      ((orest.or
          (if m.name = dt ∨ m.name = templatesDirStr ++ dt then some m else Option.none)).map
        (fun x => x.content)).or (dictLookup appShKey acc) := by
  cases orest with
  | some x => simp [Option.or]
  | none =>
      by_cases hp : m.name = dt ∨ m.name = templatesDirStr ++ dt
      · simp [mainStore, hp, dictLookup_dictSet, Option.or]
      · simp [mainStore, hp, Option.or]

/-- Lookup of application.sh after a successful run of the member loop: it holds the
content of the last member matching the two accepted main-script names, falling back to
whatever the accumulator held, provided no configured output filename collides with
application.sh. -/
theorem buildTemplateFiles_ok_lookup (members : List TarMember) (dt : Str) (sup : PyValue)
    (so : List (Str × PyValue)) (acc tf : List (Str × Str))
    (hso : ∀ kv ∈ so, ∀ f, pyIndexZero kv.2 = .ok f → f ≠ appShKey)
    (h : buildTemplateFiles members dt sup so acc = .ok tf) :
    dictLookup appShKey tf =
      ((lastMainMatch dt members).map (fun x => x.content)).or (dictLookup appShKey acc) := by
  induction members generalizing acc with
  | nil =>
      simp only [buildTemplateFiles] at h
      cases h
      simp [lastMainMatch, List.find?, Option.or]
  | cons m rest ih =>
      simp only [buildTemplateFiles] at h
      rw [lastMainMatch_cons]
      cases hin : pyIn m.name sup with
      | error e => simp only [hin] at h; cases h
      | ok b =>
          simp only [hin] at h
          cases b with
          | false =>
              rw [ih (mainStore m dt acc) h]
              exact or_mainStore_algebra m dt acc (lastMainMatch dt rest)
          | true =>
              cases hf : (so.map Prod.fst).filter (fun x => isSubstrB m.name x) with
              | nil => simp only [hf] at h; cases h
              | cons key ks =>
                  simp only [hf] at h
                  cases hl2 : dictLookup key so with
                  | none => simp only [hl2] at h; cases h
                  | some v =>
                      simp only [hl2] at h
                      cases hiz : pyIndexZero v with
                      | error e => simp only [hiz] at h; cases h
                      | ok fname =>
                          simp only [hiz] at h
                          have hne : fname ≠ appShKey :=
                            hso (key, v) (dictLookup_mem key so v hl2) fname hiz
                          rw [ih _ h, dictLookup_dictSet, if_neg hne]
                          exact or_mainStore_algebra m dt acc (lastMainMatch dt rest)

/-- C10: an archive member is selected as the main script and stored under the output
key application.sh when its name equals the configured default_template, bare or with
the templates/ prefix: on a successful run of the member loop the application.sh entry
holds exactly the content of the last member matching either name (and is absent when no
member matches), provided no supporting-file output name is itself application.sh. -/
theorem build_main_script_selection (members : List TarMember) (dt : Str) (sup : PyValue)
    (so : List (Str × PyValue)) (tf : List (Str × Str))
    (hso : ∀ kv ∈ so, ∀ f, pyIndexZero kv.2 = .ok f → f ≠ appShKey)
    (h : buildTemplateFiles members dt sup so [] = .ok tf) :
    dictLookup appShKey tf = (lastMainMatch dt members).map (fun x => x.content) := by
  have hmain := buildTemplateFiles_ok_lookup members dt sup so [] tf hso h
  simpa [dictLookup, Option.or_none] using hmain

/-- Witness for C10 at a concrete archive holding both accepted names. -/
theorem build_main_script_selection_witness :
    dictLookup appShKey [(appShKey, ("B").toList)] =
      (lastMainMatch (("job.sh").toList) witMembersC10).map (fun x => x.content) :=
  build_main_script_selection witMembersC10 (("job.sh").toList) (.list []) []
    [(appShKey, ("B").toList)] (by simp) (by rfl)

/-- C3 (amended): when no archive member matches the configured default_template, the
member loop does not fail with any missing-member error — it completes and the rendered
mapping silently omits the application.sh entry (provided no supporting-file output name
is itself application.sh). -/
theorem build_missing_default_template_omits_main (members : List TarMember) (dt : Str)
    (sup : PyValue) (so : List (Str × PyValue)) (tf : List (Str × Str))
    (hnm : ∀ m ∈ members, ¬(m.name = dt ∨ m.name = templatesDirStr ++ dt))
    (hso : ∀ kv ∈ so, ∀ f, pyIndexZero kv.2 = .ok f → f ≠ appShKey)
    (h : buildTemplateFiles members dt sup so [] = .ok tf) :
    dictLookup appShKey tf = Option.none := by
  have hmain := buildTemplateFiles_ok_lookup members dt sup so [] tf hso h
  have hl : lastMainMatch dt members = Option.none := by
    unfold lastMainMatch
    apply List.find?_eq_none.mpr
    intro m hm
    have hmm := hnm m (by simpa using hm)
    simpa using hmm
  rw [hl] at hmain
  simpa [dictLookup, Option.or_none] using hmain

/-- C3 (counterexample to the claim as stated): for this bundle whose archive has no
member matching the configured default_template, building the job-script data does not
fail with a MemberNotFound error naming the path — it succeeds, returning a JSON body
that silently omits the main script. -/
theorem build_missing_default_template_cex :
    build_job_script_data_as_string cexMembersC3 cexParamDictC3 =
        .ok (("\x7b\x7d").toList) ∧
      (Except.ok (("\x7b\x7d").toList) : Except PyError Str) ≠
        .error (.memberNotFound (("job.sh").toList)) := by
  exact ⟨by decide, by decide⟩

/-- Witness for the amended C3 at the concrete bundle of the counterexample. -/
theorem build_missing_default_template_omits_main_witness :
    dictLookup appShKey ([] : List (Str × Str)) = Option.none :=
  build_missing_default_template_omits_main cexMembersC3 (("job.sh").toList) (.list [])
    [] [] (by decide) (by simp) (by rfl)

/-- C4 (amended): a supporting file that matches no key of the output-name mapping makes
the member loop fail with an unstructured IndexError — the source indexes the empty
match list with match[0] — not with any structured missing-output-mapping configuration
error. -/
theorem build_unmapped_supporting_file_index_error (pre : List TarMember) (m : TarMember)
    (post : List TarMember) (dt : Str) (sup : PyValue) (so : List (Str × PyValue))
    (acc : List (Str × Str))
    (hpre : ∀ m2 ∈ pre, pyIn m2.name sup = .ok false)
    (hm : pyIn m.name sup = .ok true)
    (hmatch : (so.map Prod.fst).filter (fun x => isSubstrB m.name x) = []) :
    buildTemplateFiles (pre ++ m :: post) dt sup so acc = .error .indexError := by
  revert hpre
  induction pre generalizing acc with
  | nil =>
      intro hpre
      simp only [List.nil_append, buildTemplateFiles, hm, hmatch]
  | cons m2 pre' ih =>
      intro hpre
      have h2 := hpre m2 (List.mem_cons_self _ _)
      simp only [List.cons_append, buildTemplateFiles, h2]
      exact ih _ (fun x hx => hpre x (List.mem_cons_of_mem _ hx))

/-- C4 (counterexample to the claim as stated): for this bundle whose supporting file
sup.py has no entry in the absent output-name mapping, assembly fails with the
unstructured IndexError of match[0], not with a structured missing-output-mapping
configuration error. -/
theorem build_unmapped_supporting_file_cex :
    build_job_script_data_as_string cexMembersC4 cexParamDictC4 = .error .indexError ∧
      (Except.error PyError.indexError : Except PyError Str) ≠
        .error (.missingOutputMapping (("sup.py").toList)) := by
  exact ⟨by decide, by decide⟩

/-- Witness for the amended C4 at the concrete supporting member of the counterexample. -/
theorem build_unmapped_supporting_file_index_error_witness :
    buildTemplateFiles ([] ++ cexMemC4 :: []) (("job.sh").toList) cexSupC4 [] [] =
      .error .indexError :=
  build_unmapped_supporting_file_index_error [] cexMemC4 [] (("job.sh").toList) cexSupC4
    [] [] (by simp) (by rfl) (by rfl)

end Jobbergate
